import Mathlib

/-!
# Verification of the ESP32 DAC sine generator

Shallow embedding of `src/singen/singen.ino` (and the simpler sketch in
`src/unnamed/part_000`).  C `float`/`double` arithmetic on the control path is
modelled by exact rational arithmetic (`ℚ`); the transcendental `sin` is
abstracted as a parameter `sine : ℕ → ℚ` giving the value of
`sin(2π·i/size)` at each index, since every property proved here is
independent of the particular sine values (clamping, rounding, indexing and
state handling are what the claims are about).  Machine-integer casts that
truncate a positive quantity are modelled with `Int.floor`/`Int.toNat`.
-/

/-- C `round` (round half away from zero), applied to an exact rational. -/
def roundHalfAway (x : ℚ) : ℤ :=
  if 0 ≤ x then ⌊x + 1/2⌋ else ⌈x - 1/2⌉

/-- The per-sample clamp in `generateSineLUT`:
`if (dac_value < 0) dac_value = 0; else if (dac_value > 255) dac_value = 255;`. -/
def clampDac (x : ℤ) : ℤ :=
  if x < 0 then 0 else if 255 < x then 255 else x

/-- `calculateUpdatePeriod` from `singen.ino` lines 68–75, with the global
constant `LUT_SIZE` generalised to the parameter `lutSize` exactly as the
code's own guard `LUT_SIZE <= 0` anticipates:

```
if (freq <= 0 || LUT_SIZE <= 0) return 0;
uint64_t period = (uint64_t)(1000000.0 / (freq * (float)LUT_SIZE));
return (period > 0) ? period : 1;
```

The `uint64_t` cast of a positive floating value truncates toward zero,
i.e. takes the floor. -/
def calculateUpdatePeriod (freq : ℚ) (lutSize : ℤ) : ℕ :=
  if freq ≤ 0 ∨ lutSize ≤ 0 then 0
  else
    let period : ℕ := (⌊(1000000 : ℚ) / (freq * (lutSize : ℚ))⌋).toNat
    if 0 < period then period else 1

/-- **C1.** For every `freqHz > 0` and `size > 0` with `freqHz * size > 1_000_000`
(so the truncated quotient would be 0), `calculateUpdatePeriod` returns exactly
1 microsecond, never 0. -/
theorem calculateUpdatePeriod_floor_clamp (freq : ℚ) (lutSize : ℤ)
    (hf : 0 < freq) (hs : 0 < lutSize)
    (hbig : 1000000 < freq * (lutSize : ℚ)) :
    calculateUpdatePeriod freq lutSize = 1 := by
  have hsq : (0 : ℚ) < (lutSize : ℚ) := by exact_mod_cast hs
  have hprod : (0 : ℚ) < freq * (lutSize : ℚ) := mul_pos hf hsq
  have hq0 : (0 : ℚ) ≤ (1000000 : ℚ) / (freq * (lutSize : ℚ)) :=
    le_of_lt (div_pos (by norm_num) hprod)
  have hq1 : (1000000 : ℚ) / (freq * (lutSize : ℚ)) < 1 :=
    (div_lt_one hprod).mpr hbig
  have hfloor : ⌊(1000000 : ℚ) / (freq * (lutSize : ℚ))⌋ = 0 := by
    apply Int.floor_eq_zero_iff.mpr
    constructor
    · exact hq0
    · exact hq1
  simp only [calculateUpdatePeriod, hfloor]
  have : ¬ (freq ≤ 0 ∨ lutSize ≤ 0) := by
    push_neg
    exact ⟨hf, hs⟩
  simp [this]

/-- Witness for C1: `calculateUpdatePeriod 20000 256 = 1`
(20000 · 256 = 5_120_000 > 1_000_000). -/
theorem calculateUpdatePeriod_floor_clamp_witness :
    calculateUpdatePeriod 20000 256 = 1 :=
  calculateUpdatePeriod_floor_clamp 20000 256 (by norm_num) (by norm_num)
    (by norm_num)

/-- **C2.** Whenever the quotient does not truncate to 0
(`1 ≤ ⌊1_000_000 / (freqHz · size)⌋`), `calculateUpdatePeriod freqHz size`
equals `⌊1_000_000 / (freqHz · size)⌋`. -/
theorem calculateUpdatePeriod_eq_floor (freq : ℚ) (lutSize : ℤ)
    (hf : 0 < freq) (hs : 0 < lutSize)
    (hfl : 1 ≤ ⌊(1000000 : ℚ) / (freq * (lutSize : ℚ))⌋) :
    (calculateUpdatePeriod freq lutSize : ℤ) =
      ⌊(1000000 : ℚ) / (freq * (lutSize : ℚ))⌋ := by
  have hneg : ¬ (freq ≤ 0 ∨ lutSize ≤ 0) := by
    push_neg
    exact ⟨hf, hs⟩
  have hpos : 0 < (⌊(1000000 : ℚ) / (freq * (lutSize : ℚ))⌋).toNat := by
    omega
  simp only [calculateUpdatePeriod, hneg, if_false, if_pos hpos]
  omega

/-- Witness for C2: `calculateUpdatePeriod 100 64 = 156` and
`calculateUpdatePeriod 100 256 = 39`. -/
theorem calculateUpdatePeriod_eq_floor_witness :
    calculateUpdatePeriod 100 64 = 156 ∧ calculateUpdatePeriod 100 256 = 39 := by
  constructor
  · have h := calculateUpdatePeriod_eq_floor 100 64 (by norm_num) (by norm_num)
      (by rw [Int.le_floor]; norm_num)
    have : ⌊(1000000 : ℚ) / ((100 : ℚ) * ((64 : ℤ) : ℚ))⌋ = 156 := by
      rw [Int.floor_eq_iff]; norm_num
    omega
  · have h := calculateUpdatePeriod_eq_floor 100 256 (by norm_num) (by norm_num)
      (by rw [Int.le_floor]; norm_num)
    have : ⌊(1000000 : ℚ) / ((100 : ℚ) * ((256 : ℤ) : ℚ))⌋ = 39 := by
      rw [Int.floor_eq_iff]; norm_num
    omega

/-- **C7.** Any non-positive frequency maps to the stopped period: for every
`size`, `calculateUpdatePeriod 0 size = 0`, and `calculateUpdatePeriod f size = 0`
for every negative `f`. -/
theorem calculateUpdatePeriod_stop (f : ℚ) (lutSize : ℤ) :
    calculateUpdatePeriod 0 lutSize = 0 ∧
      (f < 0 → calculateUpdatePeriod f lutSize = 0) := by
  constructor
  · simp [calculateUpdatePeriod]
  · intro hf
    simp [calculateUpdatePeriod, le_of_lt hf]

/-- Witness for C7 at `f = -5`, `size = 256`. -/
theorem calculateUpdatePeriod_stop_witness :
    calculateUpdatePeriod 0 256 = 0 ∧ calculateUpdatePeriod (-5) 256 = 0 := by
  have h := calculateUpdatePeriod_stop (-5) 256
  exact ⟨h.1, h.2 (by norm_num)⟩

/-! ## The sine lookup table (`generateSineLUT`, `singen.ino` lines 52–64)

The table builder is embedded in two layers.  `buildLUT` is the loop body of
`generateSineLUT` with the two precomputed codes `offset_dac`/`amplitude_dac`
as parameters and the loop bound `LUT_SIZE` as a parameter; `generateSineLUT`
instantiates it with the codes the source computes from the voltage constants
`V_OUT_OFFSET = V_REF / 2`, `V_OUT_PEAK_TO_PEAK` and `V_REF`. -/

/-- The loop of `generateSineLUT`:
`dac_value = offset_dac + round(amplitude_dac * sine_value)` followed by the
clamp to `[0, 255]`, for `i` in `[0, size)`.  `sine i` stands for the value
`sin(2π·i/size)` the source computes with floating `sin`. -/
def buildLUT (size : ℕ) (offsetDac amplitudeDac : ℤ) (sine : ℕ → ℚ) : List ℤ :=
  (List.range size).map fun i =>
    clampDac (offsetDac + roundHalfAway ((amplitudeDac : ℚ) * sine i))

/-- `generateSineLUT` with the voltage constants generalised to parameters:
`offset_dac = round((vOutOffset / vRef) * 255.0)` and
`amplitude_dac = round(((vOutPeakToPeak / 2.0) / vRef) * 255.0)`. -/
def generateSineLUTWith (size : ℕ) (vOutOffset vOutPeakToPeak vRef : ℚ)
    (sine : ℕ → ℚ) : List ℤ :=
  buildLUT size (roundHalfAway (vOutOffset / vRef * 255))
    (roundHalfAway (vOutPeakToPeak / 2 / vRef * 255)) sine

/-- The table of `singen.ino` itself: `LUT_SIZE = 256`, `V_REF = 3.3`,
`V_OUT_PEAK_TO_PEAK = 1.0`, `V_OUT_OFFSET = V_REF / 2.0`. -/
def generateSineLUT (sine : ℕ → ℚ) : List ℤ :=
  generateSineLUTWith 256 (33/10/2) 1 (33/10) sine

/-- `sampleAt`: the O(1) table lookup `sineLUT[i]`. -/
def sampleAt (lut : List ℤ) (i : ℕ) : ℤ :=
  lut.getD i 0

/-- The spec's `build(size, vMin, vMax, refScale)`, written from the spec's own
formulas: `offsetCode = round((vMin+vMax)/2 / Vref * 255)`,
`amplitudeCode = round((vMax-vMin)/2 / Vref * 255)`,
`sample[i] = clamp(offsetCode + round(amplitudeCode * sin(2π·i/size)), 0, 255)`. -/
def buildSpec (size : ℕ) (vMin vMax vRef : ℚ) (sine : ℕ → ℚ) : List ℤ :=
  let offsetCode := roundHalfAway ((vMin + vMax) / 2 / vRef * 255)
  let amplitudeCode := roundHalfAway ((vMax - vMin) / 2 / vRef * 255)
  (List.range size).map fun i =>
    max 0 (min 255 (offsetCode + roundHalfAway ((amplitudeCode : ℚ) * sine i)))

/-- The source's two-sided if-clamp is the `clamp(·, 0, 255)` of the spec. -/
theorem clampDac_eq_max_min (x : ℤ) : clampDac x = max 0 (min 255 x) := by
  unfold clampDac
  rcases lt_or_le x 0 with h | h
  · simp [h]
    omega
  · rcases le_or_lt x 255 with h2 | h2 <;> simp [h, h2] <;> omega

/-- Every entry of a built table is in `[0, 255]`. -/
theorem buildLUT_mem_range (size : ℕ) (offsetDac amplitudeDac : ℤ)
    (sine : ℕ → ℚ) (e : ℤ) (he : e ∈ buildLUT size offsetDac amplitudeDac sine) :
    0 ≤ e ∧ e ≤ 255 := by
  unfold buildLUT at he
  simp only [List.mem_map] at he
  obtain ⟨i, _, rfl⟩ := he
  rw [clampDac_eq_max_min]
  constructor
  · exact le_max_left 0 _
  · rcases le_or_lt (min 255 (offsetDac + roundHalfAway ((amplitudeDac : ℚ) * sine i))) 0 with h | h
    · omega
    · have := min_le_left (255 : ℤ) (offsetDac + roundHalfAway ((amplitudeDac : ℚ) * sine i))
      omega

/-- Witness for C4: in the table `buildLUT 4 250 100 s` (offset 250,
amplitude 100, a sine value of 1 at index 1, so the raw value 350 overflows
the code range), the entry 255 occurs and is in `[0, 255]`. -/
theorem buildLUT_mem_range_witness :
    (255 : ℤ) ∈ buildLUT 4 250 100 (fun i => if i = 1 then 1 else 0) ∧
      (0 : ℤ) ≤ 255 ∧ (255 : ℤ) ≤ 255 := by
  have hmem : (255 : ℤ) ∈ buildLUT 4 250 100 (fun i => if i = 1 then 1 else 0) := by
    unfold buildLUT
    refine List.mem_map.mpr ⟨1, by norm_num, ?_⟩
    norm_num [roundHalfAway, clampDac, Rat.floor_def]
  exact ⟨hmem, (buildLUT_mem_range 4 250 100 _ 255 hmem).1,
    (buildLUT_mem_range 4 250 100 _ 255 hmem).2⟩

/-- **C5.** The source's table builder is exactly the spec's
`build(size, vMin, vMax, refScale)`: instantiating the voltage parameters with
`vOutOffset = (vMin+vMax)/2` and `vOutPeakToPeak = vMax - vMin` yields,
entry for entry, `clamp(offsetCode + round(amplitudeCode·sin(2πi/size)), 0, 255)`
with `offsetCode = round((vMin+vMax)/2/Vref·255)` and
`amplitudeCode = round((vMax-vMin)/2/Vref·255)`; the concrete sketch constants
correspond to `vMin = 1.15 V`, `vMax = 2.15 V`, `Vref = 3.3 V`. -/
theorem generateSineLUT_matches_buildSpec :
    (∀ (size : ℕ) (vMin vMax vRef : ℚ) (sine : ℕ → ℚ),
      generateSineLUTWith size ((vMin + vMax) / 2) (vMax - vMin) vRef sine =
        buildSpec size vMin vMax vRef sine) ∧
    (∀ sine : ℕ → ℚ,
      generateSineLUT sine = buildSpec 256 (23/20) (43/20) (33/10) sine) := by
  have key : ∀ (size : ℕ) (vMin vMax vRef : ℚ) (sine : ℕ → ℚ),
      generateSineLUTWith size ((vMin + vMax) / 2) (vMax - vMin) vRef sine =
        buildSpec size vMin vMax vRef sine := by
    intro size vMin vMax vRef sine
    unfold generateSineLUTWith buildSpec buildLUT
    simp only [clampDac_eq_max_min]
  constructor
  · exact key
  · intro sine
    have h := key 256 (23/20) (43/20) (33/10) sine
    unfold generateSineLUT
    norm_num at h ⊢
    exact h

/-- `roundHalfAway 0 = 0`. -/
theorem roundHalfAway_zero : roundHalfAway 0 = 0 := by
  unfold roundHalfAway
  rw [if_pos le_rfl, Rat.floor_def]
  norm_num

/-- **C10.** For a table built with an offset code in the code range and any
amplitude, the sample at index 0 equals the offset code to within ±1
(`sine 0 = 0`, the value the source's `sin(0)` computes exactly). -/
theorem sampleAt_zero_eq_offset (size : ℕ) (offsetDac amplitudeDac : ℤ)
    (sine : ℕ → ℚ) (hsize : 0 < size) (hsin : sine 0 = 0)
    (h0 : 0 ≤ offsetDac) (h255 : offsetDac ≤ 255) :
    |sampleAt (buildLUT size offsetDac amplitudeDac sine) 0 - offsetDac| ≤ 1 := by
  obtain ⟨n, rfl⟩ : ∃ n, size = n + 1 := ⟨size - 1, by omega⟩
  unfold sampleAt buildLUT
  rw [List.range_succ_eq_map]
  simp only [List.map_cons, List.getD_cons_zero]
  rw [hsin, mul_zero, roundHalfAway_zero, add_zero]
  rw [clampDac_eq_max_min]
  have : max 0 (min 255 offsetDac) = offsetDac := by omega
  rw [this]
  simp

/-- Witness for C10: the sketch's own codes (offset 128, amplitude 39) with a
sine vanishing at 0. -/
theorem sampleAt_zero_eq_offset_witness :
    |sampleAt (buildLUT 4 128 39 (fun _ => 0)) 0 - 128| ≤ 1 :=
  sampleAt_zero_eq_offset 4 128 39 (fun _ => 0) (by norm_num) rfl
    (by norm_num) (by norm_num)

/-! ## Playback state (`onTimer`, `setup`, `loop` of `singen.ino`)

The globals `lutIndex`, `updatePeriodMicros`, the timer's attach state and its
alarm period are gathered in a record, together with the trace of codes passed
to `dacWrite` (most recent last).  The ISR fires only while it is attached and
the alarm armed, so a "tick" system step is a no-op when the timer is
detached. -/

/-- The shared mutable state of the sketch, plus the `dacWrite` trace. -/
structure SystemState where
  lutIndex : ℕ
  updatePeriodMicros : ℕ
  timerAttached : Bool
  alarmPeriod : ℕ
  outputs : List ℤ
deriving Repr, DecidableEq

/-- The ISR `onTimer` (lines 43–49): `dacWrite(DAC_PIN, sineLUT[lutIndex])`,
then `lutIndex++`, wrapping to 0 when it reaches `LUT_SIZE = lut.length`.
The write uses the pre-increment index. -/
def onTimer (lut : List ℤ) (s : SystemState) : SystemState :=
  { s with
    outputs := s.outputs ++ [sampleAt lut s.lutIndex]
    lutIndex := if lut.length ≤ s.lutIndex + 1 then 0 else s.lutIndex + 1 }

/-- The code written in the stop branch of `loop`:
`round((V_OUT_OFFSET / V_REF) * 255.0)` with `V_OUT_OFFSET = V_REF / 2.0`. -/
def midScaleCode : ℤ := roundHalfAway ((33/10/2 : ℚ) / (33/10) * 255)

/-- The update block of `loop` (lines 128–144), run once per accepted
frequency command: `timerDetachInterrupt`, recompute `updatePeriodMicros`;
if positive, `timerAlarm` with the new period and re-attach the ISR;
otherwise leave the ISR detached and `dacWrite` the mid-scale code. -/
def reconfigure (lut : List ℤ) (freq : ℚ) (s : SystemState) : SystemState :=
  if 0 < calculateUpdatePeriod freq (lut.length : ℤ) then
    { s with
      updatePeriodMicros := calculateUpdatePeriod freq (lut.length : ℤ)
      alarmPeriod := calculateUpdatePeriod freq (lut.length : ℤ)
      timerAttached := true }
  else
    { s with
      updatePeriodMicros := calculateUpdatePeriod freq (lut.length : ℤ)
      timerAttached := false
      outputs := s.outputs ++ [midScaleCode] }

/-- The timer part of `setup` (lines 99–109): attach the ISR, compute the
initial period; if positive, `timerAlarm` at that period, otherwise
`timerDetachInterrupt` — and, in the source, no `dacWrite` at all on that
path. -/
def start (lut : List ℤ) (freq : ℚ) (s : SystemState) : SystemState :=
  if 0 < calculateUpdatePeriod freq (lut.length : ℤ) then
    { s with
      timerAttached := true
      updatePeriodMicros := calculateUpdatePeriod freq (lut.length : ℤ)
      alarmPeriod := calculateUpdatePeriod freq (lut.length : ℤ) }
  else
    { s with
      timerAttached := false
      updatePeriodMicros := calculateUpdatePeriod freq (lut.length : ℤ) }

/-- The events the system reacts to: a timer tick, an idle pass of `loop`,
or an accepted frequency command. -/
inductive Event where
  | tick
  | idle
  | command (freq : ℚ)
deriving Repr

/-- Whether an event is a frequency command. -/
def isCommand : Event → Bool
  | Event.command _ => true
  | _ => false

/-- One system step: the ISR only fires while attached and armed. -/
def step (lut : List ℤ) (s : SystemState) : Event → SystemState
  | Event.tick =>
      if s.timerAttached ∧ 0 < s.alarmPeriod then onTimer lut s else s
  | Event.idle => s
  | Event.command f => reconfigure lut f s

/-- Run a sequence of events. -/
def steps (lut : List ℤ) (es : List Event) (s : SystemState) : SystemState :=
  es.foldl (step lut) s

/-- **C3.** `reconfigure` never modifies the phase cursor: whatever value the
cursor has reached after any number of tick callbacks, it is unchanged
immediately after `reconfigure` returns, for every frequency. -/
theorem reconfigure_preserves_cursor (lut : List ℤ) (freq : ℚ) (n : ℕ)
    (s : SystemState) :
    (reconfigure lut freq ((onTimer lut)^[n] s)).lutIndex =
      ((onTimer lut)^[n] s).lutIndex := by
  unfold reconfigure
  split
  · rfl
  · rfl

/-- **C6.** A tick first emits `sampleAt lut cursor` to the output trace and
then sets `cursor := (cursor + 1) % size`, so the cursor stays a valid
index. -/
theorem onTimer_emits_then_advances (lut : List ℤ) (s : SystemState)
    (h : s.lutIndex < lut.length) :
    (onTimer lut s).outputs = s.outputs ++ [sampleAt lut s.lutIndex] ∧
    (onTimer lut s).lutIndex = (s.lutIndex + 1) % lut.length ∧
    (onTimer lut s).lutIndex < lut.length := by
  unfold onTimer
  by_cases hc : lut.length ≤ s.lutIndex + 1
  · have hlen : s.lutIndex + 1 = lut.length := by omega
    refine ⟨rfl, ?_, ?_⟩
    · simp only [if_pos hc]
      rw [hlen, Nat.mod_self]
    · simp only [if_pos hc]
      omega
  · refine ⟨rfl, ?_, ?_⟩
    · simp only [if_neg hc]
      rw [Nat.mod_eq_of_lt (by omega)]
    · simp only [if_neg hc]
      omega

/-- Witness for C6: a two-entry table with the cursor at index 1; the tick
emits entry 1 (the value 9) and wraps the cursor to 0. -/
theorem onTimer_emits_then_advances_witness :
    (onTimer [7, 9] ⟨1, 39, true, 39, [7]⟩).outputs = [7, 9] ∧
    (onTimer [7, 9] ⟨1, 39, true, 39, [7]⟩).lutIndex = 0 := by
  have h := onTimer_emits_then_advances [7, 9] ⟨1, 39, true, 39, [7]⟩
    (by norm_num)
  refine ⟨?_, ?_⟩
  · rw [h.1]
    rfl
  · rw [h.2.1]
    rfl

/-- The mid-scale code the stop branch writes is 128
(`round((1.65 / 3.3) * 255) = round(127.5)`). -/
theorem midScaleCode_eq : midScaleCode = 128 := by
  unfold midScaleCode roundHalfAway
  rw [if_pos (by norm_num), Rat.floor_def]
  norm_num

/-- While the ISR is detached, any run of non-command events leaves the whole
state unchanged: ticks cannot fire and idle passes of `loop` do nothing. -/
theorem steps_no_command_detached (lut : List ℤ) (es : List Event)
    (t : SystemState) (ht : t.timerAttached = false)
    (hes : ∀ e ∈ es, isCommand e = false) :
    steps lut es t = t := by
  induction es with
  | nil => rfl
  | cons e tl ih =>
    have he := hes e (List.mem_cons_self e tl)
    have htl : ∀ x ∈ tl, isCommand x = false :=
      fun x hx => hes x (List.mem_cons_of_mem e hx)
    have hstep : step lut t e = t := by
      cases e with
      | tick => simp [step, ht]
      | idle => rfl
      | command f => simp [isCommand] at he
    unfold steps at ih ⊢
    rw [List.foldl_cons, hstep]
    exact ih htl

/-- **C8.** When `reconfigure` computes a zero period, it leaves the ISR
detached and the alarm untouched, appends exactly one write of the mid-scale
code to the output trace, and no later writes occur over any run of events
that contains no frequency command. -/
theorem reconfigure_stop_single_write (lut : List ℤ) (freq : ℚ)
    (s : SystemState) (es : List Event)
    (hp : calculateUpdatePeriod freq (lut.length : ℤ) = 0)
    (hes : ∀ e ∈ es, isCommand e = false) :
    (steps lut es (reconfigure lut freq s)).outputs =
        s.outputs ++ [midScaleCode] ∧
    (steps lut es (reconfigure lut freq s)).timerAttached = false ∧
    (steps lut es (reconfigure lut freq s)).alarmPeriod = s.alarmPeriod := by
  have hnot : ¬ 0 < calculateUpdatePeriod freq (lut.length : ℤ) := by omega
  have hdet : (reconfigure lut freq s).timerAttached = false := by
    unfold reconfigure
    rw [if_neg hnot]
  rw [steps_no_command_detached lut es _ hdet hes]
  unfold reconfigure
  rw [if_neg hnot]
  exact ⟨rfl, rfl, rfl⟩

/-- Witness for C8: stopping with frequency 0 on a two-entry table, followed
by two tick attempts and an idle pass; the trace gains exactly the one
mid-scale write. -/
theorem reconfigure_stop_single_write_witness :
    (steps [7, 9] [Event.tick, Event.idle, Event.tick]
        (reconfigure [7, 9] 0 ⟨1, 39, true, 39, [5]⟩)).outputs =
      [5] ++ [midScaleCode] ∧
    (steps [7, 9] [Event.tick, Event.idle, Event.tick]
        (reconfigure [7, 9] 0 ⟨1, 39, true, 39, [5]⟩)).timerAttached = false ∧
    (steps [7, 9] [Event.tick, Event.idle, Event.tick]
        (reconfigure [7, 9] 0 ⟨1, 39, true, 39, [5]⟩)).alarmPeriod = 39 :=
  reconfigure_stop_single_write [7, 9] 0 ⟨1, 39, true, 39, [5]⟩
    [Event.tick, Event.idle, Event.tick]
    (by simp [calculateUpdatePeriod])
    (by simp [List.forall_mem_cons, isCommand])

/-- C9 fails on the source: in `setup`, when the computed period is 0 the
code only detaches the ISR and performs no `dacWrite` at all, so the claimed
single mid-scale write does not happen.  Concretely, starting a one-entry
table at frequency 0 from an empty trace leaves the trace empty, not of
length 1. -/
theorem start_stopped_write_counterexample :
    calculateUpdatePeriod 0 (([128] : List ℤ).length : ℤ) = 0 ∧
    ¬ (start [128] 0 ⟨0, 0, false, 0, []⟩).outputs.length = 1 := by
  have hp : calculateUpdatePeriod 0 (([128] : List ℤ).length : ℤ) = 0 := by
    simp [calculateUpdatePeriod]
  refine ⟨hp, ?_⟩
  have hnot : ¬ 0 < calculateUpdatePeriod 0 (([128] : List ℤ).length : ℤ) := by
    omega
  unfold start
  rw [if_neg hnot]
  simp

/-- **C9 (amended).** `start` with an initial frequency whose computed period
is 0 does not arm the timer (the alarm is untouched and the ISR ends up
detached) and performs no output write: the trace is unchanged. -/
theorem start_stopped_rest (lut : List ℤ) (freq : ℚ) (s : SystemState)
    (hp : calculateUpdatePeriod freq (lut.length : ℤ) = 0) :
    (start lut freq s).timerAttached = false ∧
    (start lut freq s).alarmPeriod = s.alarmPeriod ∧
    (start lut freq s).outputs = s.outputs := by
  have hnot : ¬ 0 < calculateUpdatePeriod freq (lut.length : ℤ) := by omega
  unfold start
  rw [if_neg hnot]
  exact ⟨rfl, rfl, rfl⟩

/-- Witness for the amended C9 at frequency 0 on a one-entry table. -/
theorem start_stopped_rest_witness :
    (start [128] 0 ⟨0, 0, false, 0, []⟩).timerAttached = false ∧
    (start [128] 0 ⟨0, 0, false, 0, []⟩).alarmPeriod = 0 ∧
    (start [128] 0 ⟨0, 0, false, 0, []⟩).outputs = [] :=
  start_stopped_rest [128] 0 ⟨0, 0, false, 0, []⟩
    (by simp [calculateUpdatePeriod])
